import Mathlib

/-!
Shallow embedding of the content ingestion & analytics engine
(`src/contents/views.py`, `src/contents/tasks.py` of the repository).

Conventions of the embedding:
* the relational store is a `DB` value holding the four entity tables as lists,
  with per-table autoincrement counters for primary keys;
* Django ORM calls are translated call-for-call: `Model.objects.get(...)` is a
  `List.find?` over the table, `Model.objects.create(...)` appends a row with a
  fresh primary key, `queryset.filter(...)` is `List.filter`;
* timestamps are integer seconds (`timedelta(days=n)` is `n * 86400` seconds);
* Python float division is modelled as exact division in `ℚ`;
* Django's `aggregate(Sum(...))` yields `none` on an empty queryset (SQL NULL),
  and Python's `+` on `None` raises, modelled by propagating `none` out of the
  whole request handler;
* the Celery task `generate_comment` is modelled as a function of the store,
  the cache, the current time, and the status code the external collaborator
  returns for each content id; its observable output is the list of content
  ids posted to the collaborator, in order.

The Django model classes (`contents/models.py`) are not part of the source
tree; the record shapes below are reconstructed from the field accesses in
`views.py`/`tasks.py`, and the uniqueness invariants bundled in `DBInv` are
modelled from the spec (§3).
-/

namespace Zelf

/-! ## Data model -/

structure Author where
  id : Nat
  unique_id : String
  username : String
  name : String
  url : String
  title : String
  followers : Int
  big_metadata : String
  secret_value : String
  deriving DecidableEq

structure Content where
  id : Nat
  author_id : Nat
  unique_id : String
  url : String
  title : String
  like_count : Int
  comment_count : Int
  view_count : Int
  share_count : Int
  thumbnail_url : String
  timestamp : Int
  big_metadata : String
  secret_value : String
  deriving DecidableEq

structure Tag where
  id : Nat
  name : String
  deriving DecidableEq

structure ContentTag where
  content_id : Nat
  tag_id : Nat
  deriving DecidableEq

structure DB where
  authors : List Author
  contents : List Content
  tags : List Tag
  contentTags : List ContentTag
  nextAuthorId : Nat
  nextContentId : Nat
  nextTagId : Nat
  deriving DecidableEq

def emptyDB : DB := ⟨[], [], [], [], 0, 0, 0⟩

/-! ## Ingestion (`ContentAPIView.post` and its helpers) -/

structure AuthorPayload where
  unique_external_id : String
  unique_name : String
  full_name : String
  url : String
  title : String
  big_metadata : String
  secret_value : String
  deriving DecidableEq

structure StatsPayload where
  likes : Int
  comments : Int
  views : Int
  shares : Int
  deriving DecidableEq

structure ContentPayload where
  author : AuthorPayload
  unq_external_id : String
  url : String
  title : String
  stats : StatsPayload
  thumbnail_url : String
  big_metadata : String
  secret_value : String
  hashtags : List String
  deriving DecidableEq

def get_author (db : DB) (uid : String) : Option Author :=
  db.authors.find? (fun a => a.unique_id == uid)

/-- `ContentAPIView._get_or_create_author`.  After `Author.objects.create`
the view re-reads the row with `Author.objects.get`; since creation only
happens when the lookup missed, the freshly appended row is the unique match,
so the model returns it directly. -/
def get_or_create_author (db : DB) (author : AuthorPayload) : DB × Author :=
  match get_author db author.unique_external_id with
  | some author_object => (db, author_object)
  | none =>
      let created : Author :=
        { id := db.nextAuthorId
          unique_id := author.unique_external_id
          username := author.unique_name
          name := author.full_name
          url := author.url
          title := author.title
          followers := 0
          big_metadata := author.big_metadata
          secret_value := author.secret_value }
      ({ db with authors := db.authors ++ [created],
                 nextAuthorId := db.nextAuthorId + 1 }, created)

def get_content (db : DB) (uid : String) : Option Content :=
  db.contents.find? (fun c => c.unique_id == uid)

/-- `ContentAPIView._get_or_create_content`.  When a row with the external id
already exists it is returned unchanged: the payload's stats and restricted
fields are not written to it. -/
def get_or_create_content (db : DB) (content : ContentPayload)
    (author_object : Author) (now : Int) : DB × Content :=
  match get_content db content.unq_external_id with
  | some content_object => (db, content_object)
  | none =>
      let created : Content :=
        { id := db.nextContentId
          author_id := author_object.id
          unique_id := content.unq_external_id
          url := content.url
          title := content.title
          like_count := content.stats.likes
          comment_count := content.stats.comments
          view_count := content.stats.views
          share_count := content.stats.shares
          thumbnail_url := content.thumbnail_url
          timestamp := now
          big_metadata := content.big_metadata
          secret_value := content.secret_value }
      ({ db with contents := db.contents ++ [created],
                 nextContentId := db.nextContentId + 1 }, created)

def get_tag (db : DB) (name : String) : Option Tag :=
  db.tags.find? (fun t => t.name == name)

def get_content_tag (db : DB) (cid tid : Nat) : Option ContentTag :=
  db.contentTags.find? (fun ct => ct.content_id == cid && ct.tag_id == tid)

/-- second half of one iteration of `_update_tags_mapping`'s loop:
`ContentTag.objects.get(tag=..., content=...)` / `ContentTag.objects.create`. -/
def attach_tag_link (db : DB) (content_object : Content) (tag_object : Tag) : DB :=
  match get_content_tag db content_object.id tag_object.id with
  | some _ => db
  | none =>
      { db with contentTags := db.contentTags ++ [⟨content_object.id, tag_object.id⟩] }

/-- one iteration of `_update_tags_mapping`'s loop.  As for authors, the
re-read after `Tag.objects.create` returns the freshly appended row (creation
only happens on lookup miss), so the model uses it directly. -/
def attach_tag (db : DB) (content_object : Content) (tag : String) : DB :=
  match get_tag db tag with
  | some tag_object => attach_tag_link db content_object tag_object
  | none =>
      let created : Tag := { id := db.nextTagId, name := tag }
      let db' := { db with tags := db.tags ++ [created], nextTagId := db.nextTagId + 1 }
      attach_tag_link db' content_object created

/-- `ContentAPIView._update_tags_mapping` -/
def update_tags_mapping (db : DB) (tags : List String) (content_object : Content) : DB :=
  tags.foldl (fun db tag => attach_tag db content_object tag) db

/-- `ContentAPIView.post` for a single validated payload: resolve-or-create
the author, then the content row, then attach the hashtags. -/
def ingest (db : DB) (payload : ContentPayload) (now : Int) : DB × Content :=
  match get_or_create_author db payload.author with
  | (db, author_object) =>
    match get_or_create_content db payload author_object now with
    | (db, content_object) =>
      (update_tags_mapping db payload.hashtags content_object, content_object)

/-! ## Metrics enrichment (`ContentAPIView._insert_additional_data_point`) -/

/-- tag names attached to a content row
(`ContentTag.objects.filter(content_id=...).values_list("tag__name")`);
the inner join drops a link whose tag row is missing. -/
def tags_of (db : DB) (cid : Nat) : List String :=
  db.contentTags.filterMap (fun ct =>
    if ct.content_id == cid then
      (db.tags.find? (fun t => t.id == ct.tag_id)).map (fun t => t.name)
    else none)

structure EnrichedContent where
  content : Content
  engagement_rate : ℚ
  total_engagement : Int
  tags : List String
  deriving DecidableEq

/-- `ContentAPIView._insert_additional_data_point`, acting on one page of
serialized results. -/
def insert_additional_data_point (db : DB) (page : List Content) : List EnrichedContent :=
  page.map (fun c =>
    let view_count : Int := c.view_count
    let total_engagement : Int := c.like_count + c.comment_count + c.share_count
    let engagement_rate : ℚ :=
      if view_count > 0 then (total_engagement : ℚ) / (view_count : ℚ) else 0
    { content := c
      engagement_rate := engagement_rate
      total_engagement := total_engagement
      tags := tags_of db c.id })

/-! ## Query & filter builder (`ContentAPIView._build_filters`) -/

/-- optional query parameters of the listing endpoint.  The numeric
parameters arrive as query strings and are modelled already parsed; an
absent-or-empty parameter is `none` (Python's `""` is falsy, handled by
`strTruthy` for the string-valued parameters). -/
structure QueryParams where
  author_id : Option Nat := none
  author_username : Option String := none
  timeframe : Option Int := none
  tag_id : Option Nat := none
  title : Option String := none
  deriving DecidableEq

def strTruthy (s : String) : Bool := !(s == "")

/-- one `if param: queryset = queryset.filter(...)` statement of
`_build_filters`. -/
def filter_step {β : Type} (qs : List Content) (o : Option β)
    (truthy : β → Bool) (pred : β → Content → Bool) : List Content :=
  match o with
  | none => qs
  | some v => if truthy v then qs.filter (pred v) else qs

def matches_author_id (aid : Nat) (c : Content) : Bool := c.author_id == aid

/-- `author__username=...`: inner join to the author row. -/
def matches_author_username (db : DB) (u : String) (c : Content) : Bool :=
  match db.authors.find? (fun a => a.id == c.author_id) with
  | some a => a.username == u
  | none => false

def seconds_per_day : Int := 86400

/-- `timestamp__gte=timezone.now() - timedelta(days=int(timeframe))` -/
def matches_timeframe (now days : Int) (c : Content) : Bool :=
  now - days * seconds_per_day ≤ c.timestamp

/-- `contentag__tag_id=...`: the content has a `ContentTag` link to the tag. -/
def matches_tag_id (db : DB) (tid : Nat) (c : Content) : Bool :=
  db.contentTags.any (fun ct => ct.content_id == c.id && ct.tag_id == tid)

def headMatch : List Char → List Char → Bool
  | [], _ => true
  | _ :: _, [] => false
  | a :: as, b :: bs => (a == b) && headMatch as bs

def occursIn (needle : List Char) : List Char → Bool
  | [] => needle.isEmpty
  | b :: bs => headMatch needle (b :: bs) || occursIn needle bs

/-- SQL `ILIKE %needle%`: case-insensitive substring test. -/
def icontains (hay needle : String) : Bool :=
  occursIn needle.toLower.toList hay.toLower.toList

/-- `title__icontains=...` -/
def matches_title (t : String) (c : Content) : Bool := icontains c.title t

/-- `ContentAPIView._build_filters`: the five optional filters applied in
sequence to the queryset. -/
def build_filters (db : DB) (qs : List Content) (now : Int) (qp : QueryParams) :
    List Content :=
  let qs := filter_step qs qp.author_id (fun _ => true) matches_author_id
  let qs := filter_step qs qp.author_username strTruthy (matches_author_username db)
  let qs := filter_step qs qp.timeframe (fun _ => true) (matches_timeframe now)
  let qs := filter_step qs qp.tag_id (fun _ => true) (matches_tag_id db)
  let qs := filter_step qs qp.title strTruthy matches_title
  qs

/-! ## Ordering and pagination -/

/-- newest-first comparison on ingestion timestamps (`order_by("-timestamp")`). -/
def tsGe (a b : Content) : Prop := b.timestamp ≤ a.timestamp

instance : DecidableRel tsGe := fun a b =>
  inferInstanceAs (Decidable (b.timestamp ≤ a.timestamp))

instance : IsTotal Content tsGe := ⟨fun a b => le_total b.timestamp a.timestamp⟩

instance : IsTrans Content tsGe := ⟨fun _ _ _ h₁ h₂ => le_trans h₂ h₁⟩

def order_by_timestamp_desc (l : List Content) : List Content :=
  List.insertionSort tsGe l

def max_page_size : Nat := 100

def default_page_size : Nat := 10

/-- slice `[(page-1)*size, page*size)` of the ordered set (pages 1-based). -/
def page_slice {α : Type} (l : List α) (page size : Nat) : List α :=
  (l.drop ((page - 1) * size)).take size

/-- Modelled from the spec: the Pagination Component (§4.3) is implemented by
`rest_framework`'s `PageNumberPagination`, which is not part of this
repository's source; the repository only configures it (`CustomPagination`:
default page size 10, `max_page_size` 100).  Per §4.3: a page size ≤ 0 is
rejected as invalid input (`none`), a page size above the maximum is clamped
to the maximum, and the page slice is `[(page-1)*size, page*size)` of the
ordered set, so a page past the end is an empty slice, not an error. -/
def paginate {α : Type} (l : List α) (page : Nat) (size : Int) : Option (List α) :=
  if size ≤ 0 then none
  else some (page_slice l page (min size.toNat max_page_size))

/-- Modelled from the spec: total pages metadata, `ceil(T / p)` (§4.3, §8). -/
def num_pages (total size : Nat) : Nat := (total + size - 1) / size

/-- Modelled from the spec: the newest-first ordering of the primary listing
(§4.2) is established by the `Content` model's default ordering, and the
model definitions (`contents/models.py`) are not under the source tree; the
rest — `ContentAPIView.get`: filter, order, paginate, enrich — is translated
from the view. -/
def content_list (db : DB) (now : Int) (qp : QueryParams) (page : Nat)
    (size : Int) : Option (List EnrichedContent) :=
  let queryset := build_filters db db.contents now qp
  let queryset := order_by_timestamp_desc queryset
  (paginate queryset page size).map (insert_additional_data_point db)

/-! ## Aggregate statistics (`ContentStatsAPIView.get`) -/

/-- query parameters of the stats endpoint.  The handler's
`request.query_params.dict()` may carry all of the listing's filter
parameters, but the handler only ever reads `tag`. -/
structure StatsParams where
  author_id : Option Nat := none
  author_username : Option String := none
  timeframe : Option Int := none
  tag_id : Option Nat := none
  title : Option String := none
  tag : Option String := none
  deriving DecidableEq

/-- `contentag__tag__name=...`: the content has a link to a tag with the name. -/
def has_tag_name (db : DB) (t : String) (c : Content) : Bool :=
  db.contentTags.any (fun ct => ct.content_id == c.id &&
    (match db.tags.find? (fun tg => tg.id == ct.tag_id) with
     | some tg => tg.name == t
     | none => false))

/-- the queryset the stats handler aggregates over:
`Content.objects.filter(**filters)` where `filters` holds at most the
`tag` name filter. -/
def stats_queryset (db : DB) (qp : StatsParams) : List Content :=
  match qp.tag with
  | some t => if strTruthy t then db.contents.filter (has_tag_name db t) else db.contents
  | none => db.contents

/-- `Sum(...)` of a Django `aggregate`: SQL NULL (`none`) on an empty set. -/
def dj_sum (l : List Int) : Option Int :=
  if l.isEmpty then none else some l.sum

/-- `Sum("author__followers")` joins each content row to its author; the
foreign key is non-nullable, a dangling link contributes 0 in the model. -/
def followers_of (db : DB) (c : Content) : Int :=
  match db.authors.find? (fun a => a.id == c.author_id) with
  | some a => a.followers
  | none => 0

/-- Python `+` on two values that may be `None`: raises (propagated as
`none`) unless both are present. -/
def py_add : Option Int → Option Int → Option Int
  | some a, some b => some (a + b)
  | _, _ => none

structure StatsResponse where
  total_likes : Option Int
  total_shares : Option Int
  total_views : Option Int
  total_comments : Option Int
  total_followers : Option Int
  total_contents : Nat
  total_engagement : Int
  total_engagement_rate : ℚ
  deriving DecidableEq

/-- `ContentStatsAPIView.get`.  A `none` result is the handler raising: with
an empty queryset every `Sum` aggregate is `None` and
`data["total_likes"] + data["total_shares"] + data["total_comments"]` is a
`TypeError`.  The rate line `... if data["total_views"] else 0` tests Python
truthiness, so both `None` and `0` total views give rate `0`. -/
def content_stats (db : DB) (qp : StatsParams) : Option StatsResponse :=
  let queryset := stats_queryset db qp
  let total_likes := dj_sum (queryset.map (fun c => c.like_count))
  let total_shares := dj_sum (queryset.map (fun c => c.share_count))
  let total_views := dj_sum (queryset.map (fun c => c.view_count))
  let total_comments := dj_sum (queryset.map (fun c => c.comment_count))
  let total_followers := dj_sum (queryset.map (followers_of db))
  let total_contents := queryset.length
  match py_add (py_add total_likes total_shares) total_comments with
  | none => none
  | some total_engagement =>
      let total_engagement_rate : ℚ :=
        match total_views with
        | some v => if v == 0 then 0 else (total_engagement : ℚ) / (v : ℚ)
        | none => 0
      some { total_likes := total_likes
             total_shares := total_shares
             total_views := total_views
             total_comments := total_comments
             total_followers := total_followers
             total_contents := total_contents
             total_engagement := total_engagement
             total_engagement_rate := total_engagement_rate }

/-! ## Enrichment gate (`contents/tasks.py`, `generate_comment`) -/

structure CacheEntry where
  content_id : Nat
  expires_at : Int
  deriving DecidableEq

/-- the Django cache keyed by `"comment-{content.id}"`, with absolute expiry
times. -/
abbrev Cache := List CacheEntry

def entry_for (cache : Cache) (cid : Nat) : Option CacheEntry :=
  cache.find? (fun e => e.content_id == cid)

/-- `cache.get(f"comment-{id}")`: the stored value while unexpired. -/
def cache_get (cache : Cache) (cid : Nat) (now : Int) : Option Int :=
  match entry_for cache cid with
  | some e => if now < e.expires_at then some e.expires_at else none
  | none => none

/-- `cache.set(key, value, timeout)`: overwrite any entry for the key. -/
def cache_set (cache : Cache) (cid : Nat) (expires_at : Int) : Cache :=
  ⟨cid, expires_at⟩ :: cache.filter (fun e => !(e.content_id == cid))

def day_seconds : Int := 60 * 60 * 24

/-- `Content.objects.select_related("author").all().order_by("-timestamp")[:10]` -/
def last_n_contents (db : DB) (n : Nat) : List Content :=
  (order_by_timestamp_desc db.contents).take n

/-- the `for content in contents:` loop of `generate_comment`.  `resp cid` is
the HTTP status the external collaborator returns for content `cid` at this
tick; `invoked` accumulates the ids posted so far.  A cache hit executes
`return`, ending the whole task, not just the current iteration.  Only a 200
response writes the cache entry (24-hour timeout). -/
def generate_comment_loop (resp : Nat → Int) (now : Int) :
    List Content → Cache → List Nat → Cache × List Nat
  | [], cache, invoked => (cache, invoked)
  | content :: rest, cache, invoked =>
      match cache_get cache content.id now with
      | some _ => (cache, invoked)
      | none =>
          let invoked := invoked ++ [content.id]
          if resp content.id == 200 then
            generate_comment_loop resp now rest
              (cache_set cache content.id (now + day_seconds)) invoked
          else
            generate_comment_loop resp now rest cache invoked

/-- the `generate_comment` Celery task: walk the ten most recent content
rows, returning the final cache and the content ids sent to the external
collaborator, in order. -/
def generate_comment (db : DB) (cache : Cache) (now : Int) (resp : Nat → Int) :
    Cache × List Nat :=
  generate_comment_loop resp now (last_n_contents db 10) cache []

/-! ## Store invariants (spec §3) -/

/-- Modelled from the spec: the uniqueness invariants of §3, enforced in the
real system by the (absent) model definitions' database constraints, plus
freshness of the tag primary-key counter. -/
structure DBInv (db : DB) : Prop where
  authors_uniq : ∀ uid, (db.authors.countP (fun a => a.unique_id == uid)) ≤ 1
  contents_uniq : ∀ uid, (db.contents.countP (fun c => c.unique_id == uid)) ≤ 1
  tags_name_uniq : ∀ n, (db.tags.countP (fun t => t.name == n)) ≤ 1
  tags_id_uniq : ∀ i, (db.tags.countP (fun t => t.id == i)) ≤ 1
  tags_fresh : ∀ t ∈ db.tags, t.id < db.nextTagId
  cts_uniq : ∀ cid tid,
    (db.contentTags.countP (fun ct => ct.content_id == cid && ct.tag_id == tid)) ≤ 1

/-- the tag `n` is stored exactly once and linked to content `cid` by exactly
one `ContentTag` row. -/
def tag_link_ok (db : DB) (cid : Nat) (n : String) : Prop :=
  (db.tags.countP (fun t => t.name == n)) = 1 ∧
  ∃ t, get_tag db n = some t ∧
    (db.contentTags.countP (fun ct => ct.content_id == cid && ct.tag_id == t.id)) = 1

/-! ## Sample data for concrete runs -/

def sampleAuthor : AuthorPayload :=
  { unique_external_id := "a1", unique_name := "bob", full_name := "Bob"
    url := "u", title := "t", big_metadata := "m", secret_value := "s" }

def samplePayload : ContentPayload :=
  { author := sampleAuthor, unq_external_id := "c1", url := "cu"
    title := "Hello", stats := { likes := 10, comments := 5, views := 100, shares := 5 }
    thumbnail_url := "th", big_metadata := "m", secret_value := "s"
    hashtags := ["x", "x", "y"] }

/-- the same external content id re-ingested with different stats and
restricted fields. -/
def samplePayloadUpdated : ContentPayload :=
  { samplePayload with
    stats := { likes := 999, comments := 50, views := 1000, shares := 50 }
    big_metadata := "m2", secret_value := "s2" }

def sampleContentA : Content :=
  { id := 0, author_id := 1, unique_id := "ca", url := "", title := ""
    like_count := 3, comment_count := 1, view_count := 0, share_count := 2
    thumbnail_url := "", timestamp := 100, big_metadata := "", secret_value := "" }

def sampleContentB : Content :=
  { id := 1, author_id := 2, unique_id := "cb", url := "", title := ""
    like_count := 7, comment_count := 2, view_count := 10, share_count := 1
    thumbnail_url := "", timestamp := 50, big_metadata := "", secret_value := "" }

def sampleAuthorRow1 : Author :=
  { id := 1, unique_id := "a1", username := "bob", name := "Bob", url := ""
    title := "", followers := 4, big_metadata := "", secret_value := "" }

def sampleAuthorRow2 : Author :=
  { id := 2, unique_id := "a2", username := "eve", name := "Eve", url := ""
    title := "", followers := 6, big_metadata := "", secret_value := "" }

/-- a store with two content rows by two different authors. -/
def sampleDB : DB :=
  { authors := [sampleAuthorRow1, sampleAuthorRow2]
    contents := [sampleContentA, sampleContentB]
    tags := [], contentTags := [], nextAuthorId := 3, nextContentId := 2, nextTagId := 0 }

def sampleEnrichedB : EnrichedContent :=
  { content := sampleContentB, engagement_rate := 1, total_engagement := 10, tags := [] }

/-! ## General list lemmas -/

lemma countP_append_one {α : Type} (p : α → Bool) (l : List α) (x : α) :
    (l ++ [x]).countP p = l.countP p + (if p x then 1 else 0) := by
  simp [List.countP_append, List.countP_cons]

lemma find?_eq_none_iff {α : Type} {p : α → Bool} {l : List α} :
    l.find? p = none ↔ l.countP p = 0 := by
  rw [List.find?_eq_none, List.countP_eq_zero]

lemma countP_pos_of_mem {α : Type} {p : α → Bool} {l : List α} {a : α}
    (h : a ∈ l) (hp : p a = true) : 0 < l.countP p :=
  List.countP_pos_iff.mpr ⟨a, h, hp⟩

lemma find?_unique {α : Type} {p : α → Bool} {l : List α} {a : α}
    (h1 : l.countP p ≤ 1) (h2 : a ∈ l) (h3 : p a = true) :
    l.find? p = some a := by
  induction l with
  | nil => cases h2
  | cons x xs ih =>
    rcases List.mem_cons.mp h2 with rfl | hmem
    · exact List.find?_cons_of_pos _ h3
    · by_cases hx : p x = true
      · exfalso
        have hpos : 0 < xs.countP p := countP_pos_of_mem hmem h3
        have hc := List.countP_cons_of_pos p xs hx
        omega
      · rw [List.find?_cons_of_neg _ hx]
        have hc := List.countP_cons_of_neg p xs hx
        exact ih (by omega) hmem

lemma two_le_countP {α : Type} {p : α → Bool} {l : List α} {a b : α}
    (ha : a ∈ l) (hb : b ∈ l) (hab : a ≠ b) (hpa : p a = true) (hpb : p b = true) :
    2 ≤ l.countP p := by
  induction l with
  | nil => cases ha
  | cons x xs ih =>
    rcases List.mem_cons.mp ha with rfl | ha'
    · rcases List.mem_cons.mp hb with rfl | hb'
      · exact absurd rfl hab
      · have hpos : 0 < xs.countP p := countP_pos_of_mem hb' hpb
        have hc := List.countP_cons_of_pos p xs hpa
        omega
    · rcases List.mem_cons.mp hb with rfl | hb'
      · have hpos : 0 < xs.countP p := countP_pos_of_mem ha' hpa
        have hc := List.countP_cons_of_pos p xs hpb
        omega
      · have h2 := ih ha' hb'
        have hc := List.countP_cons p x xs
        omega

/-! ## Claims -/

/-- C1: the claim says re-ingesting an existing content external id refreshes
the four counters and restricted fields from the payload.  The code
(`_get_or_create_content`) returns the existing row untouched, while its own
docstring records the user complaint "stats are not being updated" it was
meant to fix.  Evaluating the model at the failing input: re-ingesting
external id `"c1"` with `likes = 999`, `big_metadata = "m2"` leaves the
stored row at the first payload's `likes = 10`, `big_metadata = "m"`
(exactly one row, but stale). -/
theorem c1_reingest_keeps_stale_stats :
    ((ingest (ingest emptyDB samplePayload 5).1 samplePayloadUpdated 9).1.contents.map
        (fun c => (c.like_count, c.big_metadata))) = [(10, "m")] ∧
    samplePayloadUpdated.stats.likes = 999 ∧
    samplePayloadUpdated.big_metadata = "m2" := by
  decide

/-- C2: every item of an enriched page carries
`total_engagement = like_count + comment_count + share_count`, and
`engagement_rate` equal to `total_engagement / view_count` when
`view_count > 0` and exactly `0` when `view_count = 0` (total rational
division, never an error or NaN). -/
theorem c2_per_item_engagement (db : DB) (page : List Content) (e : EnrichedContent)
    (he : e ∈ insert_additional_data_point db page) :
    e.total_engagement =
      e.content.like_count + e.content.comment_count + e.content.share_count ∧
    (0 < e.content.view_count →
      e.engagement_rate = (e.total_engagement : ℚ) / (e.content.view_count : ℚ)) ∧
    (e.content.view_count = 0 → e.engagement_rate = 0) := by
  rcases List.mem_map.mp he with ⟨c, _, rfl⟩
  dsimp only
  refine ⟨rfl, fun h => ?_, fun h => ?_⟩
  · rw [if_pos h]
  · rw [if_neg (by omega)]

theorem c2_per_item_engagement_witness :
    sampleEnrichedB ∈ insert_additional_data_point sampleDB [sampleContentB] ∧
    0 < sampleContentB.view_count ∧
    sampleEnrichedB.engagement_rate =
      (sampleEnrichedB.total_engagement : ℚ) / (sampleEnrichedB.content.view_count : ℚ) := by
  have hmem : sampleEnrichedB ∈ insert_additional_data_point sampleDB [sampleContentB] := by
    simp only [insert_additional_data_point, List.map_cons, List.map_nil,
      List.mem_singleton]
    simp [sampleEnrichedB, sampleContentB, tags_of, sampleDB]
  exact ⟨hmem, by decide,
    (c2_per_item_engagement sampleDB [sampleContentB] sampleEnrichedB hmem).2.1 (by decide)⟩

/-- C7: the claim says the Stats API accepts the listing's filter parameters
(author_id, author_username, timeframe, tag_id, title) and applies them to
the aggregated set.  The handler reads only `tag` from the query parameters
and applies no other filter, although its own docstring demands "it must
have the same filters as `ContentAPIView`".  At the failing input
`author_id=1` on a store whose two content rows belong to authors 1 and 2,
the stats handler aggregates both rows (`total_contents = 2`,
`total_likes = 10`), while the listing filter keeps only author 1's single
row. -/
theorem c7_stats_ignores_query_filters :
    (content_stats sampleDB { author_id := some 1 }).map (fun r => r.total_contents) =
      some 2 ∧
    (content_stats sampleDB { author_id := some 1 }).map (fun r => r.total_likes) =
      some (some 10) ∧
    (build_filters sampleDB sampleDB.contents 0 { author_id := some 1 }).length = 1 := by
  decide

lemma mem_stats_queryset {db : DB} {qp : StatsParams} {c : Content}
    (h : c ∈ stats_queryset db qp) : c ∈ db.contents := by
  unfold stats_queryset at h
  split at h
  · split at h
    · exact (List.mem_filter.mp h).1
    · exact h
  · exact h

lemma dj_sum_ne_nil {l : List Int} (h : l ≠ []) : dj_sum l = some l.sum := by
  simp [dj_sum, List.isEmpty_eq_false.mpr h]

lemma rate_eq (e : Int) {v : Int} (hv : 0 ≤ v) :
    (if v == 0 then (0 : ℚ) else (e : ℚ) / (v : ℚ)) =
      if 0 < v then (e : ℚ) / (v : ℚ) else 0 := by
  by_cases h : v = 0
  · simp [h]
  · have hpos : 0 < v := lt_of_le_of_ne hv (Ne.symm h)
    simp [h, hpos]

/-- C3 counterexample: on the empty filtered set the stats handler raises
(every `Sum` aggregate is SQL NULL and `None + None` is a `TypeError`),
modelled as a `none` result, contradicting the claim's "including the empty
set, ... never raising an error". -/
theorem c3_empty_aggregate_raises : content_stats emptyDB {} = none := by
  rfl

/-- C3 (amended): for every store and filter whose filtered set is nonempty,
the stats handler returns the component-wise sums over the entire filtered,
unpaginated set, `total_engagement = total_likes + total_shares +
total_comments` (views excluded), and `total_engagement_rate =
total_engagement / total_views` when `total_views > 0` and `0` otherwise
(counters are non-negative, spec §3).  On the empty filtered set the handler
raises instead (see the counterexample). -/
theorem c3_aggregate_totals_nonempty (db : DB) (qp : StatsParams)
    (hne : stats_queryset db qp ≠ [])
    (hnn : ∀ c ∈ db.contents, 0 ≤ c.view_count) :
    content_stats db qp = some
      { total_likes := some ((stats_queryset db qp).map (fun c => c.like_count)).sum
        total_shares := some ((stats_queryset db qp).map (fun c => c.share_count)).sum
        total_views := some ((stats_queryset db qp).map (fun c => c.view_count)).sum
        total_comments := some ((stats_queryset db qp).map (fun c => c.comment_count)).sum
        total_followers := some ((stats_queryset db qp).map (followers_of db)).sum
        total_contents := (stats_queryset db qp).length
        total_engagement :=
          ((stats_queryset db qp).map (fun c => c.like_count)).sum +
          ((stats_queryset db qp).map (fun c => c.share_count)).sum +
          ((stats_queryset db qp).map (fun c => c.comment_count)).sum
        total_engagement_rate :=
          if 0 < ((stats_queryset db qp).map (fun c => c.view_count)).sum then
            ((((stats_queryset db qp).map (fun c => c.like_count)).sum +
              ((stats_queryset db qp).map (fun c => c.share_count)).sum +
              ((stats_queryset db qp).map (fun c => c.comment_count)).sum : Int) : ℚ) /
            ((((stats_queryset db qp).map (fun c => c.view_count)).sum : Int) : ℚ)
          else 0 } := by
  have hm : ∀ f : Content → Int, (stats_queryset db qp).map f ≠ [] := by
    intro f h
    exact hne (List.map_eq_nil_iff.mp h)
  have hnnq : 0 ≤ ((stats_queryset db qp).map (fun c => c.view_count)).sum := by
    apply List.sum_nonneg
    intro x hx
    rcases List.mem_map.mp hx with ⟨c, hc, rfl⟩
    exact hnn c (mem_stats_queryset hc)
  simp only [content_stats]
  rw [dj_sum_ne_nil (hm _), dj_sum_ne_nil (hm _), dj_sum_ne_nil (hm _),
    dj_sum_ne_nil (hm _), dj_sum_ne_nil (hm _)]
  simp only [py_add]
  simp only [Option.some.injEq, StatsResponse.mk.injEq, true_and, and_true]
  exact rate_eq _ hnnq

theorem c3_aggregate_totals_nonempty_witness :
    stats_queryset sampleDB {} ≠ [] ∧
    (∀ c ∈ sampleDB.contents, 0 ≤ c.view_count) ∧
    content_stats sampleDB {} = some
      { total_likes := some ((stats_queryset sampleDB {}).map (fun c => c.like_count)).sum
        total_shares := some ((stats_queryset sampleDB {}).map (fun c => c.share_count)).sum
        total_views := some ((stats_queryset sampleDB {}).map (fun c => c.view_count)).sum
        total_comments :=
          some ((stats_queryset sampleDB {}).map (fun c => c.comment_count)).sum
        total_followers :=
          some ((stats_queryset sampleDB {}).map (followers_of sampleDB)).sum
        total_contents := (stats_queryset sampleDB {}).length
        total_engagement :=
          ((stats_queryset sampleDB {}).map (fun c => c.like_count)).sum +
          ((stats_queryset sampleDB {}).map (fun c => c.share_count)).sum +
          ((stats_queryset sampleDB {}).map (fun c => c.comment_count)).sum
        total_engagement_rate :=
          if 0 < ((stats_queryset sampleDB {}).map (fun c => c.view_count)).sum then
            ((((stats_queryset sampleDB {}).map (fun c => c.like_count)).sum +
              ((stats_queryset sampleDB {}).map (fun c => c.share_count)).sum +
              ((stats_queryset sampleDB {}).map (fun c => c.comment_count)).sum : Int) : ℚ) /
            ((((stats_queryset sampleDB {}).map (fun c => c.view_count)).sum : Int) : ℚ)
          else 0 } :=
  ⟨by decide, by decide,
    c3_aggregate_totals_nonempty sampleDB {} (by decide) (by decide)⟩

lemma le_num_pages_mul {T s : Nat} (hs : 0 < s) : T ≤ num_pages T s * s := by
  unfold num_pages
  rcases Nat.eq_zero_or_pos T with rfl | hT
  · simp
  · have hdm := Nat.div_add_mod (T + s - 1) s
    have hlt : (T + s - 1) % s < s := Nat.mod_lt _ hs
    rw [mul_comm]
    generalize hsq : s * ((T + s - 1) / s) = m at hdm ⊢
    omega

lemma num_pages_pred_mul_lt {T s : Nat} (hs : 0 < s) (hT : 0 < T) :
    (num_pages T s - 1) * s < T := by
  unfold num_pages
  have hdm := Nat.div_add_mod (T + s - 1) s
  have hlt : (T + s - 1) % s < s := Nat.mod_lt _ hs
  rw [Nat.sub_mul, one_mul, mul_comm]
  generalize hsq : s * ((T + s - 1) / s) = m at hdm ⊢
  omega

lemma num_pages_pos {T s : Nat} (hs : 0 < s) (hT : 0 < T) : 0 < num_pages T s := by
  unfold num_pages
  have hle : s ≤ T + s - 1 := by omega
  have := (Nat.one_le_div_iff hs).mpr hle
  omega

lemma num_pages_eq_ceil {T s : Nat} (hs : 0 < s) :
    num_pages T s = Nat.ceil ((T : ℚ) / (s : ℚ)) := by
  have hsq : (0 : ℚ) < (s : ℚ) := by exact_mod_cast hs
  rcases Nat.eq_zero_or_pos T with rfl | hT
  · have h0 : num_pages 0 s = 0 := by
      unfold num_pages
      exact Nat.div_eq_of_lt (by omega)
    simp [h0]
  · have hn : num_pages T s ≠ 0 := Nat.pos_iff_ne_zero.mp (num_pages_pos hs hT)
    rw [eq_comm, Nat.ceil_eq_iff hn]
    constructor
    · rw [lt_div_iff₀ hsq]
      have key := num_pages_pred_mul_lt hs hT
      have h1 : 1 ≤ num_pages T s := Nat.one_le_iff_ne_zero.mpr hn
      push_cast [Nat.cast_sub h1]
      exact_mod_cast key
    · rw [div_le_iff₀ hsq]
      exact_mod_cast le_num_pages_mul hs

/-- C6: pagination rules (modelled from the spec, §4.3, with the repository's
`CustomPagination` limits): a page size ≤ 0 is rejected as invalid input; a
page size above the maximum 100 is clamped to 100; a valid page size yields
the slice `[(page-1)*size, page*size)` of the ordered set; a page beyond the
last page yields an empty slice, not an error; and the number of pages is
`ceil(T / p)`. -/
theorem c6_pagination_rules {α : Type} (l : List α) (page : Nat) (size : Int) :
    (size ≤ 0 → paginate l page size = none) ∧
    (100 < size → paginate l page size = paginate l page 100) ∧
    (0 < size → size ≤ 100 →
      paginate l page size = some (page_slice l page size.toNat)) ∧
    (0 < size → size ≤ 100 → num_pages l.length size.toNat < page →
      paginate l page size = some []) ∧
    (∀ T s : Nat, 0 < s → num_pages T s = Nat.ceil ((T : ℚ) / (s : ℚ))) := by
  refine ⟨fun h => ?_, fun h => ?_, fun h1 h2 => ?_, fun h1 h2 h3 => ?_,
    fun T s hs => num_pages_eq_ceil hs⟩
  · simp [paginate, h]
  · have hs : ¬ size ≤ 0 := by omega
    have h100 : (100 : Nat) ≤ size.toNat := by omega
    simp [paginate, hs, max_page_size, Nat.min_eq_right h100]
  · have hs : ¬ size ≤ 0 := by omega
    have hle : size.toNat ≤ 100 := by omega
    simp [paginate, hs, max_page_size, Nat.min_eq_left hle]
  · have hs : ¬ size ≤ 0 := by omega
    have hle : size.toNat ≤ 100 := by omega
    have hstoNat : 0 < size.toNat := by omega
    have hdrop : l.length ≤ (page - 1) * size.toNat := by
      have h4 : num_pages l.length size.toNat ≤ page - 1 := by omega
      calc l.length ≤ num_pages l.length size.toNat * size.toNat :=
            le_num_pages_mul hstoNat
        _ ≤ (page - 1) * size.toNat := Nat.mul_le_mul_right _ h4
    simp [paginate, hs, max_page_size, Nat.min_eq_left hle, page_slice,
      List.drop_eq_nil_of_le hdrop]

theorem c6_pagination_rules_witness :
    ((-1 : Int) ≤ 0 ∧ paginate ([10, 20, 30] : List Nat) 1 (-1) = none) ∧
    ((100 : Int) < 1000 ∧
      paginate ([10, 20, 30] : List Nat) 1 1000 = paginate [10, 20, 30] 1 100) ∧
    ((0 : Int) < 2 ∧ (2 : Int) ≤ 100 ∧
      paginate ([10, 20, 30] : List Nat) 2 2 = some (page_slice [10, 20, 30] 2 (2 : Int).toNat)) ∧
    (num_pages 3 2 < 5 ∧ paginate ([10, 20, 30] : List Nat) 5 2 = some []) ∧
    (0 < 2 ∧ num_pages 3 2 = Nat.ceil ((3 : ℚ) / (2 : ℚ))) :=
  ⟨⟨by decide, (c6_pagination_rules [10, 20, 30] 1 (-1)).1 (by decide)⟩,
   ⟨by decide, (c6_pagination_rules [10, 20, 30] 1 1000).2.1 (by decide)⟩,
   ⟨by decide, by decide, (c6_pagination_rules [10, 20, 30] 2 2).2.2.1 (by decide) (by decide)⟩,
   ⟨by decide, (c6_pagination_rules [10, 20, 30] 5 2).2.2.2.1 (by decide) (by decide) (by decide)⟩,
   ⟨by decide, (c6_pagination_rules ([] : List Nat) 1 1).2.2.2.2 3 2 (by decide)⟩⟩

lemma mem_filter_step {β : Type} {qs : List Content} {o : Option β} {tr : β → Bool}
    {f : β → Content → Bool} {c : Content} :
    c ∈ filter_step qs o tr f ↔
      c ∈ qs ∧ ∀ v, o = some v → tr v = true → f v c = true := by
  cases o with
  | none => simp [filter_step]
  | some v =>
    by_cases htr : tr v = true
    · simp [filter_step, htr, List.mem_filter]
    · simp [filter_step, htr]

/-- C8: for every combination of the optional filter parameters, membership
in the built queryset is the conjunction of membership in each single-filter
queryset; absent parameters impose no constraint (the empty parameter set is
the identity); and `timeframe = N` keeps exactly the content whose ingestion
timestamp is at least `now` minus `N` days. -/
theorem c8_filter_conjunction (db : DB) (qs : List Content) (now : Int)
    (qp : QueryParams) (c : Content) :
    (c ∈ build_filters db qs now qp ↔
      (c ∈ build_filters db qs now { author_id := qp.author_id } ∧
       c ∈ build_filters db qs now { author_username := qp.author_username } ∧
       c ∈ build_filters db qs now { timeframe := qp.timeframe } ∧
       c ∈ build_filters db qs now { tag_id := qp.tag_id } ∧
       c ∈ build_filters db qs now { title := qp.title })) ∧
    (build_filters db qs now {} = qs) ∧
    (∀ N : Int, c ∈ build_filters db qs now { timeframe := some N } ↔
      c ∈ qs ∧ now - N * seconds_per_day ≤ c.timestamp) := by
  refine ⟨?_, rfl, fun N => ?_⟩
  · simp only [build_filters, mem_filter_step]
    tauto
  · simp only [build_filters, mem_filter_step]
    simp [matches_timeframe]

theorem c8_filter_conjunction_witness :
    build_filters sampleDB sampleDB.contents 0 {} = sampleDB.contents :=
  (c8_filter_conjunction sampleDB sampleDB.contents 0 {} sampleContentA).2.1

lemma join_page_slices {α : Type} (s : Nat) :
    ∀ (n : Nat) (l : List α), l.length ≤ n * s →
      ((List.range n).map (fun i => page_slice l (i + 1) s)).flatten = l := by
  intro n
  induction n with
  | zero =>
    intro l hl
    have : l = [] := List.eq_nil_of_length_eq_zero (by omega)
    simp [this]
  | succ n ih =>
    intro l hl
    rw [List.range_succ_eq_map]
    simp only [List.map_cons, List.map_map, List.flatten_cons]
    have h0 : page_slice l 1 s = l.take s := by
      simp [page_slice]
    have hstep : ((List.range n).map
        ((fun i => page_slice l (i + 1) s) ∘ Nat.succ)).flatten = l.drop s := by
      rw [List.map_congr_left (g := fun i => page_slice (l.drop s) (i + 1) s)]
      · refine ih (l.drop s) ?_
        rw [Nat.succ_mul] at hl
        rw [List.length_drop]
        omega
      · intro i _
        show (l.drop ((i + 1 + 1 - 1) * s)).take s = ((l.drop s).drop ((i + 1 - 1) * s)).take s
        rw [List.drop_drop]
        congr 2
        rw [Nat.add_sub_cancel, Nat.add_sub_cancel, Nat.succ_mul]
        exact Nat.add_comm _ _
    rw [h0, hstep, List.take_append_drop]

/-- C9: the primary listing's result set is ordered newest-first by ingestion
timestamp before pagination is applied (ordering modelled from the spec: the
`Content` model's default ordering, `contents/models.py` being absent from
the source tree), the slices of pages `1..num_pages` concatenate back to the
whole ordered filtered set (pagination is stable across pages), and each page
the endpoint returns is exactly the corresponding slice of that ordered set.
The query pipeline is a pure function of the store and the parameters, so the
same parameter set on unchanged data yields the same ordered result by
definition. -/
theorem c9_listing_order_stable (db : DB) (now : Int) (qp : QueryParams)
    (page : Nat) (size : Int) (s : Nat) (hs : 0 < s) :
    List.Sorted tsGe (order_by_timestamp_desc (build_filters db db.contents now qp)) ∧
    ((List.range (num_pages
          (order_by_timestamp_desc (build_filters db db.contents now qp)).length s)).map
        (fun i =>
          page_slice (order_by_timestamp_desc (build_filters db db.contents now qp))
            (i + 1) s)).flatten =
      order_by_timestamp_desc (build_filters db db.contents now qp) ∧
    (0 < size → size ≤ 100 →
      content_list db now qp page size =
        some (insert_additional_data_point db
          (page_slice (order_by_timestamp_desc (build_filters db db.contents now qp))
            page size.toNat))) := by
  refine ⟨List.sorted_insertionSort tsGe _,
    join_page_slices s _ _ (le_num_pages_mul hs), fun h1 h2 => ?_⟩
  have hns : ¬ size ≤ 0 := by omega
  have hle : size.toNat ≤ 100 := by omega
  simp [content_list, paginate, hns, max_page_size, Nat.min_eq_left hle]

theorem c9_listing_order_stable_witness :
    0 < 2 ∧ (0 : Int) < 2 ∧ (2 : Int) ≤ 100 ∧
    content_list sampleDB 0 {} 1 2 =
      some (insert_additional_data_point sampleDB
        (page_slice (order_by_timestamp_desc (build_filters sampleDB sampleDB.contents 0 {}))
          1 (2 : Int).toNat)) :=
  ⟨by decide, by decide, by decide,
    (c9_listing_order_stable sampleDB 0 {} 1 2 2 (by decide)).2.2 (by decide) (by decide)⟩

lemma find?_filter_of_imp {α : Type} {p q : α → Bool} (l : List α)
    (h : ∀ a, p a = true → q a = true) : (l.filter q).find? p = l.find? p := by
  induction l with
  | nil => rfl
  | cons x xs ih =>
    by_cases hp : p x = true
    · rw [List.filter_cons, if_pos (h x hp), List.find?_cons_of_pos _ hp,
        List.find?_cons_of_pos _ hp]
    · rw [List.find?_cons_of_neg _ hp, List.filter_cons]
      by_cases hq : q x = true
      · rw [if_pos hq, List.find?_cons_of_neg _ hp, ih]
      · rw [if_neg hq, ih]

lemma entry_for_set_ne {cache : Cache} {cid x : Nat} {e : Int} (h : x ≠ cid) :
    entry_for (cache_set cache cid e) x = entry_for cache x := by
  unfold entry_for cache_set
  rw [List.find?_cons_of_neg]
  · refine find?_filter_of_imp _ ?_
    intro a ha
    have ha' : a.content_id = x := by simpa using ha
    simp [ha', h]
  · simp [Ne.symm h]

lemma cache_get_set_ne {cache : Cache} {cid x : Nat} {e now : Int} (h : x ≠ cid) :
    cache_get (cache_set cache cid e) x now = cache_get cache x now := by
  unfold cache_get
  rw [entry_for_set_ne h]

lemma entry_for_set_self (cache : Cache) (cid : Nat) (e : Int) :
    entry_for (cache_set cache cid e) cid = some ⟨cid, e⟩ := by
  unfold entry_for cache_set
  rw [List.find?_cons_of_pos]
  simp

lemma loop_not_invoked (resp : Nat → Int) (now : Int) :
    ∀ (L : List Content) (cache : Cache) (acc : List Nat) (x : Nat),
      cache_get cache x now ≠ none → x ∉ acc →
      x ∉ (generate_comment_loop resp now L cache acc).2 := by
  intro L
  induction L with
  | nil =>
    intro cache acc x hc hacc
    simpa [generate_comment_loop] using hacc
  | cons c rest ih =>
    intro cache acc x hc hacc
    cases hcg : cache_get cache c.id now with
    | some v =>
      simpa [generate_comment_loop, hcg] using hacc
    | none =>
      have hne : x ≠ c.id := by
        intro h
        rw [h] at hc
        exact hc hcg
      have hacc' : x ∉ acc ++ [c.id] := by
        simp [hacc, hne]
      simp only [generate_comment_loop, hcg]
      cases hr : (resp c.id == 200) with
      | true =>
        simp only [hr, if_true]
        exact ih _ _ _ (by rwa [cache_get_set_ne hne]) hacc'
      | false =>
        simp only [hr, Bool.false_eq_true, if_false]
        exact ih _ _ _ hc hacc'

lemma loop_entry_persists (resp : Nat → Int) (now : Int) :
    ∀ (L : List Content) (cache : Cache) (acc : List Nat) (x : Nat) (en : CacheEntry),
      entry_for cache x = some en → now < en.expires_at →
      entry_for (generate_comment_loop resp now L cache acc).1 x = some en := by
  intro L
  induction L with
  | nil =>
    intro cache acc x en hen _
    simpa [generate_comment_loop] using hen
  | cons c rest ih =>
    intro cache acc x en hen hexp
    cases hcg : cache_get cache c.id now with
    | some v =>
      simpa [generate_comment_loop, hcg] using hen
    | none =>
      have hne : x ≠ c.id := by
        intro h
        have hx : cache_get cache x now = some en.expires_at := by
          simp [cache_get, hen, hexp]
        rw [h, hcg] at hx
        cases hx
      simp only [generate_comment_loop, hcg]
      cases hr : (resp c.id == 200) with
      | true =>
        simp only [hr, if_true]
        exact ih _ _ _ _ (by rwa [entry_for_set_ne hne]) hexp
      | false =>
        simp only [hr, Bool.false_eq_true, if_false]
        exact ih _ _ _ _ hen hexp

lemma loop_success_entry (resp : Nat → Int) (now : Int) :
    ∀ (L : List Content) (cache : Cache) (acc : List Nat) (x : Nat),
      x ∉ acc → resp x = 200 →
      x ∈ (generate_comment_loop resp now L cache acc).2 →
      entry_for (generate_comment_loop resp now L cache acc).1 x =
        some ⟨x, now + day_seconds⟩ := by
  intro L
  induction L with
  | nil =>
    intro cache acc x hacc _ hmem
    exact absurd (by simpa [generate_comment_loop] using hmem) hacc
  | cons c rest ih =>
    intro cache acc x hacc hresp hmem
    cases hcg : cache_get cache c.id now with
    | some v =>
      exact absurd (by simpa [generate_comment_loop, hcg] using hmem) hacc
    | none =>
      by_cases hcx : c.id = x
      · subst hcx
        have hr : (resp c.id == 200) = true := by simp [hresp]
        simp only [generate_comment_loop, hcg, hr, if_true]
        refine loop_entry_persists resp now _ _ _ _ _ (entry_for_set_self _ _ _) ?_
        simp [day_seconds]
      · have hacc' : x ∉ acc ++ [c.id] := by
          simp [hacc, Ne.symm hcx]
        simp only [generate_comment_loop, hcg] at hmem ⊢
        cases hr : (resp c.id == 200) with
        | true =>
          simp only [hr, if_true] at hmem ⊢
          exact ih _ _ _ hacc' hresp hmem
        | false =>
          simp only [hr, Bool.false_eq_true, if_false] at hmem ⊢
          exact ih _ _ _ hacc' hresp hmem

lemma loop_failed_entry (resp : Nat → Int) (now : Int) :
    ∀ (L : List Content) (cache : Cache) (acc : List Nat) (x : Nat),
      resp x ≠ 200 →
      entry_for (generate_comment_loop resp now L cache acc).1 x = entry_for cache x := by
  intro L
  induction L with
  | nil =>
    intro cache acc x _
    rfl
  | cons c rest ih =>
    intro cache acc x hresp
    cases hcg : cache_get cache c.id now with
    | some v =>
      simp [generate_comment_loop, hcg]
    | none =>
      simp only [generate_comment_loop, hcg]
      cases hr : (resp c.id == 200) with
      | true =>
        have hne : x ≠ c.id := by
          intro h
          rw [← h] at hr
          exact hresp (by simpa using hr)
        simp only [hr, if_true]
        rw [ih _ _ _ hresp, entry_for_set_ne hne]
      | false =>
        simp only [hr, Bool.false_eq_true, if_false]
        exact ih _ _ _ hresp

lemma loop_count_eq (resp : Nat → Int) (now : Int) :
    ∀ (L : List Content) (cache : Cache) (acc : List Nat) (x : Nat),
      (∀ d ∈ L, d.id ≠ x) →
      (generate_comment_loop resp now L cache acc).2.count x = acc.count x := by
  intro L
  induction L with
  | nil =>
    intro cache acc x _
    rfl
  | cons c rest ih =>
    intro cache acc x hL
    cases hcg : cache_get cache c.id now with
    | some v =>
      simp [generate_comment_loop, hcg]
    | none =>
      have hcx : c.id ≠ x := hL c (by simp)
      have hacc : (acc ++ [c.id]).count x = acc.count x := by
        simp [List.count_append, List.count_cons, hcx]
      have hrest : ∀ d ∈ rest, d.id ≠ x := fun d hd => hL d (by simp [hd])
      simp only [generate_comment_loop, hcg]
      cases hr : (resp c.id == 200) with
      | true =>
        simp only [hr, if_true]
        rw [ih _ _ _ hrest, hacc]
      | false =>
        simp only [hr, Bool.false_eq_true, if_false]
        rw [ih _ _ _ hrest, hacc]

lemma loop_count_le (resp : Nat → Int) (now : Int) :
    ∀ (L : List Content) (cache : Cache) (acc : List Nat) (x : Nat),
      L.Pairwise (fun a b => a.id ≠ b.id) →
      (generate_comment_loop resp now L cache acc).2.count x ≤ acc.count x + 1 := by
  intro L
  induction L with
  | nil =>
    intro cache acc x _
    simp [generate_comment_loop]
  | cons c rest ih =>
    intro cache acc x hpw
    obtain ⟨hhead, htail⟩ := List.pairwise_cons.mp hpw
    cases hcg : cache_get cache c.id now with
    | some v =>
      simp [generate_comment_loop, hcg]
    | none =>
      simp only [generate_comment_loop, hcg]
      by_cases hcx : c.id = x
      · subst hcx
        have hacc : (acc ++ [c.id]).count c.id = acc.count c.id + 1 := by
          simp [List.count_append]
        have hrest : ∀ d ∈ rest, d.id ≠ c.id := fun d hd => (hhead d hd).symm
        cases hr : (resp c.id == 200) with
        | true =>
          simp only [hr, if_true]
          rw [loop_count_eq resp now _ _ _ _ hrest, hacc]
        | false =>
          simp only [hr, Bool.false_eq_true, if_false]
          rw [loop_count_eq resp now _ _ _ _ hrest, hacc]
      · have hacc : (acc ++ [c.id]).count x = acc.count x := by
          simp [List.count_append, List.count_cons, hcx]
        cases hr : (resp c.id == 200) with
        | true =>
          simp only [hr, if_true]
          rw [← hacc]
          exact ih _ _ _ htail
        | false =>
          simp only [hr, Bool.false_eq_true, if_false]
          rw [← hacc]
          exact ih _ _ _ htail

lemma loop_stops (resp : Nat → Int) (now : Int) :
    ∀ (L₁ : List Content) (c : Content) (L₂ : List Content) (cache : Cache)
      (acc : List Nat),
      (L₁ ++ c :: L₂).Pairwise (fun a b => a.id ≠ b.id) →
      cache_get cache c.id now ≠ none →
      ∀ d ∈ L₂, d.id ∉ acc →
        d.id ∉ (generate_comment_loop resp now (L₁ ++ c :: L₂) cache acc).2 := by
  intro L₁
  induction L₁ with
  | nil =>
    intro c L₂ cache acc _ hc d hd hdacc
    cases hcg : cache_get cache c.id now with
    | none => exact absurd hcg hc
    | some v =>
      simpa [generate_comment_loop, hcg] using hdacc
  | cons h L₁ ih =>
    intro c L₂ cache acc hpw hc d hd hdacc
    rw [List.cons_append, List.pairwise_cons] at hpw
    obtain ⟨hhead, htail⟩ := hpw
    cases hcg : cache_get cache h.id now with
    | some v =>
      simpa [generate_comment_loop, hcg] using hdacc
    | none =>
      have hhd : h.id ≠ d.id := hhead d (by simp [hd])
      have hhc : h.id ≠ c.id := hhead c (by simp)
      have hdacc' : d.id ∉ acc ++ [h.id] := by
        simp [hdacc, Ne.symm hhd]
      rw [List.cons_append]
      simp only [generate_comment_loop, hcg]
      cases hr : (resp h.id == 200) with
      | true =>
        simp only [hr, if_true]
        exact ih c L₂ _ _ htail (by rwa [cache_get_set_ne (fun he => hhc he.symm)])
          d hd hdacc'
      | false =>
        simp only [hr, Bool.false_eq_true, if_false]
        exact ih c L₂ _ _ htail hc d hd hdacc'

lemma last_n_pairwise {db : DB} (n : Nat)
    (h : db.contents.Pairwise (fun a b => a.id ≠ b.id)) :
    (last_n_contents db n).Pairwise (fun a b => a.id ≠ b.id) := by
  unfold last_n_contents order_by_timestamp_desc
  refine List.Pairwise.sublist (List.take_sublist _ _) ?_
  exact ((List.perm_insertionSort tsGe db.contents).pairwise_iff
    (fun hxy => hxy.symm)).mpr h

/-- C10: with the `return`-on-cache-hit behaviour of `generate_comment`, as
soon as the tick's walk over the ten most recent content rows reaches an item
whose id has a (unexpired) Dedup Cache entry, the whole tick ends: no item
after it in the newest-first order is sent to the external collaborator, even
when those later items have no cache entry.  (Content primary keys are
pairwise distinct, spec §3.) -/
theorem c10_tick_stops_at_first_cache_hit (db : DB) (cache : Cache) (now : Int)
    (resp : Nat → Int) (L₁ L₂ : List Content) (c : Content)
    (hsplit : last_n_contents db 10 = L₁ ++ c :: L₂)
    (hdist : db.contents.Pairwise (fun a b => a.id ≠ b.id))
    (hhit : cache_get cache c.id now ≠ none) :
    ∀ d ∈ L₂, d.id ∉ (generate_comment db cache now resp).2 := by
  intro d hd
  have hpw := last_n_pairwise 10 hdist
  rw [hsplit] at hpw
  rw [generate_comment, hsplit]
  exact loop_stops resp now L₁ c L₂ cache [] hpw hhit d hd (by simp)

theorem c10_tick_stops_at_first_cache_hit_witness :
    last_n_contents sampleDB 10 = [] ++ sampleContentA :: [sampleContentB] ∧
    sampleDB.contents.Pairwise (fun a b => a.id ≠ b.id) ∧
    cache_get [⟨0, 100⟩] sampleContentA.id 0 ≠ none ∧
    ∀ d ∈ [sampleContentB],
      d.id ∉ (generate_comment sampleDB [⟨0, 100⟩] 0 (fun _ => 200)).2 :=
  ⟨by decide, by decide, by decide,
    c10_tick_stops_at_first_cache_hit sampleDB [⟨0, 100⟩] 0 (fun _ => 200)
      [] [sampleContentB] sampleContentA (by decide) (by decide) (by decide)⟩

/-- C4 counterexample: the claim's conclusion "calling the Gate twice within
24 hours for the same content id invokes the collaborator at most once" fails
when the first response is not a success: with the collaborator answering 500
at both ticks, content id 0 is posted at the first tick (no cache entry is
written) and posted again at the second tick one hour later. -/
theorem c4_retry_after_failure_counterexample :
    ((generate_comment sampleDB [] 0 (fun _ => 500)).2 ++
      (generate_comment sampleDB (generate_comment sampleDB [] 0 (fun _ => 500)).1
        3600 (fun _ => 500)).2).count 0 = 2 ∧
    (3600 : Int) < 0 + day_seconds := by
  decide

/-- C4 (amended): a content id with an unexpired Dedup Cache entry at tick
time is never sent to the external collaborator during that tick; a content
id that is sent and answered 200 gets a cache entry expiring 24 hours after
the tick; a non-success response leaves the id's cache entry exactly as it
was; hence, *provided the first tick's response for the id is a success*, two
ticks within 24 hours send that id to the collaborator at most once.
(Content primary keys are pairwise distinct, spec §3.) -/
theorem c4_dedup_gate (db : DB) (cache : Cache) (now₁ now₂ : Int)
    (resp₁ resp₂ : Nat → Int) (x : Nat)
    (hdist : db.contents.Pairwise (fun a b => a.id ≠ b.id)) :
    (cache_get cache x now₁ ≠ none → x ∉ (generate_comment db cache now₁ resp₁).2) ∧
    (x ∈ (generate_comment db cache now₁ resp₁).2 → resp₁ x = 200 →
      entry_for (generate_comment db cache now₁ resp₁).1 x =
        some ⟨x, now₁ + day_seconds⟩) ∧
    (resp₁ x ≠ 200 →
      entry_for (generate_comment db cache now₁ resp₁).1 x = entry_for cache x) ∧
    (now₁ ≤ now₂ → now₂ < now₁ + day_seconds → resp₁ x = 200 →
      ((generate_comment db cache now₁ resp₁).2 ++
        (generate_comment db (generate_comment db cache now₁ resp₁).1 now₂ resp₂).2).count
          x ≤ 1) := by
  have hpw := last_n_pairwise 10 hdist
  refine ⟨fun hc => loop_not_invoked resp₁ now₁ _ _ _ _ hc (by simp),
    fun hmem hresp => loop_success_entry resp₁ now₁ _ _ _ _ (by simp) hresp hmem,
    fun hresp => loop_failed_entry resp₁ now₁ _ _ _ _ hresp,
    fun hle hlt hresp => ?_⟩
  rw [List.count_append]
  by_cases hx1 : x ∈ (generate_comment db cache now₁ resp₁).2
  · have hentry := loop_success_entry resp₁ now₁ _ cache [] x (by simp) hresp hx1
    have hget : cache_get (generate_comment db cache now₁ resp₁).1 x now₂ ≠ none := by
      simp [cache_get, generate_comment, hentry, hlt]
    have hx2 : x ∉ (generate_comment db (generate_comment db cache now₁ resp₁).1
        now₂ resp₂).2 :=
      loop_not_invoked resp₂ now₂ _ _ _ _ hget (by simp)
    have h1 : (generate_comment db cache now₁ resp₁).2.count x ≤ 1 := by
      have := loop_count_le resp₁ now₁ (last_n_contents db 10) cache [] x hpw
      simpa [generate_comment] using this
    have h2 : (generate_comment db (generate_comment db cache now₁ resp₁).1
        now₂ resp₂).2.count x = 0 := List.count_eq_zero.mpr hx2
    omega
  · have h1 : (generate_comment db cache now₁ resp₁).2.count x = 0 :=
      List.count_eq_zero.mpr hx1
    have h2 : (generate_comment db (generate_comment db cache now₁ resp₁).1
        now₂ resp₂).2.count x ≤ 1 := by
      have := loop_count_le resp₂ now₂ (last_n_contents db 10)
        (generate_comment db cache now₁ resp₁).1 [] x hpw
      simpa [generate_comment] using this
    omega

theorem c4_dedup_gate_witness :
    sampleDB.contents.Pairwise (fun a b => a.id ≠ b.id) ∧
    (0 : Int) ≤ 3600 ∧ (3600 : Int) < 0 + day_seconds ∧
    ((generate_comment sampleDB [] 0 (fun _ => 200)).2 ++
      (generate_comment sampleDB (generate_comment sampleDB [] 0 (fun _ => 200)).1
        3600 (fun _ => 200)).2).count 0 ≤ 1 :=
  ⟨by decide, by decide, by decide,
    (c4_dedup_gate sampleDB [] 0 3600 (fun _ => 200) (fun _ => 200) 0
      (by decide)).2.2.2 (by decide) (by decide) rfl⟩

lemma gca_spec (db : DB) (p : AuthorPayload) (hinv : DBInv db) :
    (get_or_create_author db p).1.contents = db.contents ∧
    (get_or_create_author db p).1.tags = db.tags ∧
    (get_or_create_author db p).1.contentTags = db.contentTags ∧
    (get_or_create_author db p).1.nextTagId = db.nextTagId ∧
    ((get_or_create_author db p).1.authors.countP
      (fun a => a.unique_id == p.unique_external_id)) = 1 ∧
    DBInv (get_or_create_author db p).1 := by
  unfold get_or_create_author
  cases hga : get_author db p.unique_external_id with
  | some a =>
    dsimp only
    have hmem := List.mem_of_find?_eq_some hga
    have hpa := List.find?_some hga
    have h1 : 0 < db.authors.countP (fun a => a.unique_id == p.unique_external_id) :=
      countP_pos_of_mem hmem hpa
    have h2 := hinv.authors_uniq p.unique_external_id
    exact ⟨rfl, rfl, rfl, rfl, by omega, hinv⟩
  | none =>
    have h0 : db.authors.countP (fun a => a.unique_id == p.unique_external_id) = 0 :=
      find?_eq_none_iff.mp hga
    refine ⟨rfl, rfl, rfl, rfl, ?_, ?_⟩
    · rw [countP_append_one, h0]
      simp
    · constructor
      · intro uid
        rw [countP_append_one]
        by_cases huid : uid = p.unique_external_id
        · subst huid
          rw [h0]
          simp
        · simpa [Ne.symm huid] using hinv.authors_uniq uid
      · exact hinv.contents_uniq
      · exact hinv.tags_name_uniq
      · exact hinv.tags_id_uniq
      · exact hinv.tags_fresh
      · exact hinv.cts_uniq

lemma gcc_spec (db : DB) (p : ContentPayload) (ao : Author) (now : Int)
    (hinv : DBInv db) :
    (get_or_create_content db p ao now).1.authors = db.authors ∧
    (get_or_create_content db p ao now).1.tags = db.tags ∧
    (get_or_create_content db p ao now).1.contentTags = db.contentTags ∧
    (get_or_create_content db p ao now).1.nextTagId = db.nextTagId ∧
    ((get_or_create_content db p ao now).1.contents.countP
      (fun c => c.unique_id == p.unq_external_id)) = 1 ∧
    get_content (get_or_create_content db p ao now).1 p.unq_external_id =
      some (get_or_create_content db p ao now).2 ∧
    DBInv (get_or_create_content db p ao now).1 := by
  unfold get_or_create_content
  cases hgc : get_content db p.unq_external_id with
  | some c =>
    dsimp only
    have hmem := List.mem_of_find?_eq_some hgc
    have hpc := List.find?_some hgc
    have h1 : 0 < db.contents.countP (fun c => c.unique_id == p.unq_external_id) :=
      countP_pos_of_mem hmem hpc
    have h2 := hinv.contents_uniq p.unq_external_id
    exact ⟨rfl, rfl, rfl, rfl, by omega, hgc, hinv⟩
  | none =>
    have h0 : db.contents.countP (fun c => c.unique_id == p.unq_external_id) = 0 :=
      find?_eq_none_iff.mp hgc
    refine ⟨rfl, rfl, rfl, rfl, ?_, ?_, ?_⟩
    · rw [countP_append_one, h0]
      simp
    · show List.find? _ (db.contents ++ [_]) = _
      rw [List.find?_append]
      unfold get_content at hgc
      rw [hgc]
      simp
    · constructor
      · exact hinv.authors_uniq
      · intro uid
        rw [countP_append_one]
        by_cases huid : uid = p.unq_external_id
        · subst huid
          rw [h0]
          simp
        · simpa [Ne.symm huid] using hinv.contents_uniq uid
      · exact hinv.tags_name_uniq
      · exact hinv.tags_id_uniq
      · exact hinv.tags_fresh
      · exact hinv.cts_uniq

lemma ctl_fields (db : DB) (co : Content) (t : Tag) :
    (attach_tag_link db co t).authors = db.authors ∧
    (attach_tag_link db co t).contents = db.contents ∧
    (attach_tag_link db co t).tags = db.tags ∧
    (attach_tag_link db co t).nextTagId = db.nextTagId := by
  unfold attach_tag_link
  cases get_content_tag db co.id t.id <;> exact ⟨rfl, rfl, rfl, rfl⟩

lemma ctl_count_self (db : DB) (co : Content) (t : Tag)
    (h : db.contentTags.countP
      (fun ct => ct.content_id == co.id && ct.tag_id == t.id) ≤ 1) :
    ((attach_tag_link db co t).contentTags.countP
      (fun ct => ct.content_id == co.id && ct.tag_id == t.id)) = 1 := by
  unfold attach_tag_link
  cases hct : get_content_tag db co.id t.id with
  | some e =>
    dsimp only
    have hmem := List.mem_of_find?_eq_some hct
    have hpe := List.find?_some hct
    have h1 : 0 < db.contentTags.countP
        (fun ct => ct.content_id == co.id && ct.tag_id == t.id) :=
      countP_pos_of_mem hmem hpe
    omega
  | none =>
    have h0 : db.contentTags.countP
        (fun ct => ct.content_id == co.id && ct.tag_id == t.id) = 0 :=
      find?_eq_none_iff.mp hct
    rw [countP_append_one, h0]
    simp

lemma ctl_count_other (db : DB) (co : Content) (t : Tag) (cid tid : Nat)
    (h : ¬(cid = co.id ∧ tid = t.id)) :
    ((attach_tag_link db co t).contentTags.countP
      (fun ct => ct.content_id == cid && ct.tag_id == tid)) =
    (db.contentTags.countP (fun ct => ct.content_id == cid && ct.tag_id == tid)) := by
  unfold attach_tag_link
  cases hct : get_content_tag db co.id t.id with
  | some e => rfl
  | none =>
    rw [countP_append_one]
    rcases not_and_or.mp h with h1 | h1 <;> simp [Ne.symm h1]

lemma ctl_inv (db : DB) (co : Content) (t : Tag) (hinv : DBInv db) :
    DBInv (attach_tag_link db co t) := by
  obtain ⟨ha, hc, ht, hn⟩ := ctl_fields db co t
  constructor
  · rw [ha]; exact hinv.authors_uniq
  · rw [hc]; exact hinv.contents_uniq
  · rw [ht]; exact hinv.tags_name_uniq
  · rw [ht]; exact hinv.tags_id_uniq
  · rw [ht, hn]; exact hinv.tags_fresh
  · intro cid tid
    by_cases hcase : cid = co.id ∧ tid = t.id
    · obtain ⟨rfl, rfl⟩ := hcase
      rw [ctl_count_self db co t (hinv.cts_uniq _ _)]
    · rw [ctl_count_other db co t cid tid hcase]
      exact hinv.cts_uniq _ _

lemma attach_tag_spec (db : DB) (co : Content) (tag : String) (hinv : DBInv db) :
    (attach_tag db co tag).authors = db.authors ∧
    (attach_tag db co tag).contents = db.contents ∧
    DBInv (attach_tag db co tag) ∧
    tag_link_ok (attach_tag db co tag) co.id tag ∧
    (∀ m, m ≠ tag → tag_link_ok db co.id m →
      tag_link_ok (attach_tag db co tag) co.id m) := by
  unfold attach_tag
  cases hgt : get_tag db tag with
  | some t =>
    dsimp only
    obtain ⟨ha, hc, ht, hn⟩ := ctl_fields db co t
    have hinv' := ctl_inv db co t hinv
    have htmem := List.mem_of_find?_eq_some hgt
    have htname : t.name = tag := by simpa using List.find?_some hgt
    have hcount1 : db.tags.countP (fun x => x.name == tag) = 1 := by
      have h1 : 0 < db.tags.countP (fun x => x.name == tag) :=
        countP_pos_of_mem htmem (by simp [htname])
      have h2 := hinv.tags_name_uniq tag
      omega
    refine ⟨ha, hc, hinv', ⟨by rw [ht]; exact hcount1, t, ?_, ?_⟩, ?_⟩
    · unfold get_tag
      rw [ht]
      exact hgt
    · exact ctl_count_self db co t (hinv.cts_uniq _ _)
    · intro m hm hok
      obtain ⟨hcm, tm, hgtm, hctm⟩ := hok
      have htm_mem := List.mem_of_find?_eq_some hgtm
      have htm_name : tm.name = m := by simpa using List.find?_some hgtm
      have hne' : t ≠ tm := by
        intro he
        apply hm
        rw [← htm_name, ← he, htname]
      have hidne : tm.id ≠ t.id := by
        intro hid
        have h2 : 2 ≤ db.tags.countP (fun x => x.id == t.id) :=
          two_le_countP htmem htm_mem hne' (by simp) (by simp [hid])
        have := hinv.tags_id_uniq t.id
        omega
      refine ⟨by rw [ht]; exact hcm, tm, ?_, ?_⟩
      · unfold get_tag
        rw [ht]
        exact hgtm
      · rw [ctl_count_other db co t co.id tm.id (fun hand => hidne hand.2)]
        exact hctm
  | none =>
    dsimp only
    set created : Tag := { id := db.nextTagId, name := tag } with hcr
    set db' : DB :=
      { db with tags := db.tags ++ [created], nextTagId := db.nextTagId + 1 } with hdb'
    have h0 : db.tags.countP (fun x => x.name == tag) = 0 := find?_eq_none_iff.mp hgt
    have hinv' : DBInv db' := by
      constructor
      · exact hinv.authors_uniq
      · exact hinv.contents_uniq
      · intro n
        show (db.tags ++ [created]).countP _ ≤ 1
        rw [countP_append_one]
        by_cases hn : n = tag
        · subst hn
          rw [h0]
          simp
        · simpa [hcr, Ne.symm hn] using hinv.tags_name_uniq n
      · intro i
        show (db.tags ++ [created]).countP _ ≤ 1
        rw [countP_append_one]
        by_cases hi : i = db.nextTagId
        · subst hi
          have hz : db.tags.countP (fun x => x.id == db.nextTagId) = 0 := by
            rw [List.countP_eq_zero]
            intro x hx
            have := hinv.tags_fresh x hx
            simp
            omega
          rw [hz]
          simp
        · simpa [hcr, Ne.symm hi] using hinv.tags_id_uniq i
      · intro x hx
        rcases List.mem_append.mp hx with hmem | hmem
        · exact Nat.lt_succ_of_lt (hinv.tags_fresh x hmem)
        · have hxeq : x = created := by simpa using hmem
          rw [hxeq, hcr]
          exact Nat.lt_succ_self _
      · exact hinv.cts_uniq
    obtain ⟨ha', hc', ht', hn'⟩ := ctl_fields db' co created
    have hinv'' := ctl_inv db' co created hinv'
    have hget' : get_tag db' tag = some created := by
      unfold get_tag
      show (db.tags ++ [created]).find? _ = some created
      rw [List.find?_append]
      unfold get_tag at hgt
      rw [hgt]
      simp [hcr]
    have hcount1' : db'.tags.countP (fun x => x.name == tag) = 1 := by
      show (db.tags ++ [created]).countP _ = 1
      rw [countP_append_one, h0]
      simp [hcr]
    refine ⟨ha', hc', hinv'', ⟨by rw [ht']; exact hcount1', created, ?_, ?_⟩, ?_⟩
    · unfold get_tag
      rw [ht']
      exact hget'
    · exact ctl_count_self db' co created (hinv'.cts_uniq _ _)
    · intro m hm hok
      obtain ⟨hcm, tm, hgtm, hctm⟩ := hok
      have htm_mem := List.mem_of_find?_eq_some hgtm
      have hidne : tm.id ≠ created.id := by
        have h1 := hinv.tags_fresh tm htm_mem
        have h2 : created.id = db.nextTagId := rfl
        omega
      have hcm' : db'.tags.countP (fun x => x.name == m) = 1 := by
        show (db.tags ++ [created]).countP _ = 1
        rw [countP_append_one, hcm]
        simp [hcr, Ne.symm hm]
      have hgtm' : get_tag db' m = some tm := by
        unfold get_tag
        show (db.tags ++ [created]).find? _ = some tm
        rw [List.find?_append]
        unfold get_tag at hgtm
        rw [hgtm]
        rfl
      refine ⟨by rw [ht']; exact hcm', tm, ?_, ?_⟩
      · unfold get_tag
        rw [ht']
        exact hgtm'
      · rw [ctl_count_other db' co created co.id tm.id (fun hand => hidne hand.2)]
        exact hctm

lemma update_tags_fold (co : Content) :
    ∀ (tags : List String) (db : DB) (S : List String),
      DBInv db → (∀ m ∈ S, tag_link_ok db co.id m) →
      (update_tags_mapping db tags co).authors = db.authors ∧
      (update_tags_mapping db tags co).contents = db.contents ∧
      DBInv (update_tags_mapping db tags co) ∧
      (∀ m, m ∈ S ∨ m ∈ tags → tag_link_ok (update_tags_mapping db tags co) co.id m) := by
  intro tags
  induction tags with
  | nil =>
    intro db S hinv hS
    refine ⟨rfl, rfl, hinv, fun m hm => ?_⟩
    rcases hm with hm | hm
    · exact hS m hm
    · cases hm
  | cons t ts ih =>
    intro db S hinv hS
    obtain ⟨ha, hc, hinv', hok, hpres⟩ := attach_tag_spec db co t hinv
    have hS' : ∀ m ∈ t :: S, tag_link_ok (attach_tag db co t) co.id m := by
      intro m hm
      rcases List.mem_cons.mp hm with rfl | hm
      · exact hok
      · by_cases hmt : m = t
        · subst hmt
          exact hok
        · exact hpres m hmt (hS m hm)
    obtain ⟨ha2, hc2, hinv2, hok2⟩ := ih (attach_tag db co t) (t :: S) hinv' hS'
    have hfold : update_tags_mapping db (t :: ts) co =
        update_tags_mapping (attach_tag db co t) ts co := rfl
    rw [hfold]
    refine ⟨ha2.trans ha, hc2.trans hc, hinv2, fun m hm => ?_⟩
    apply hok2
    rcases hm with hm | hm
    · exact Or.inl (List.mem_cons.mpr (Or.inr hm))
    · rcases List.mem_cons.mp hm with rfl | hm
      · exact Or.inl (List.mem_cons.mpr (Or.inl rfl))
      · exact Or.inr hm

lemma ingest_spec (db : DB) (p : ContentPayload) (now : Int) (hinv : DBInv db) :
    DBInv (ingest db p now).1 ∧
    ((ingest db p now).1.authors.countP
      (fun a => a.unique_id == p.author.unique_external_id)) = 1 ∧
    ((ingest db p now).1.contents.countP
      (fun c => c.unique_id == p.unq_external_id)) = 1 ∧
    get_content (ingest db p now).1 p.unq_external_id = some (ingest db p now).2 ∧
    (∀ m ∈ p.hashtags, tag_link_ok (ingest db p now).1 (ingest db p now).2.id m) := by
  obtain ⟨hc1, ht1, hct1, hn1, hauth1, hinv1⟩ := gca_spec db p.author hinv
  rcases h1 : get_or_create_author db p.author with ⟨db1, ao⟩
  rw [h1] at hc1 ht1 hct1 hn1 hauth1 hinv1
  dsimp only at hc1 ht1 hct1 hn1 hauth1 hinv1
  obtain ⟨ha2, ht2, hct2, hn2, hcont2, hfind2, hinv2⟩ := gcc_spec db1 p ao now hinv1
  rcases h2 : get_or_create_content db1 p ao now with ⟨db2, co⟩
  rw [h2] at ha2 ht2 hct2 hn2 hcont2 hfind2 hinv2
  dsimp only at ha2 ht2 hct2 hn2 hcont2 hfind2 hinv2
  obtain ⟨ha3, hc3, hinv3, hok3⟩ := update_tags_fold co p.hashtags db2 [] hinv2
    (fun m hm => absurd hm (List.not_mem_nil m))
  have hing : ingest db p now = (update_tags_mapping db2 p.hashtags co, co) := by
    rw [ingest, h1]
    dsimp only
    rw [h2]
  rw [hing]
  refine ⟨hinv3, ?_, ?_, ?_, fun m hm => hok3 m (Or.inr hm)⟩
  · show (update_tags_mapping db2 p.hashtags co).authors.countP _ = 1
    rw [ha3, ha2]
    exact hauth1
  · show (update_tags_mapping db2 p.hashtags co).contents.countP _ = 1
    rw [hc3]
    exact hcont2
  · show get_content (update_tags_mapping db2 p.hashtags co) p.unq_external_id = some co
    unfold get_content
    rw [hc3]
    exact hfind2

/-- C5: ingestion is idempotent.  Starting from any store satisfying the
uniqueness invariants of §3, ingesting the same payload twice yields exactly
one Author row for the payload's author external id and exactly one Content
row for the content external id; after either ingestion every hashtag of the
payload — duplicate names in the list included — is stored as exactly one Tag
row and linked to the payload's content row by exactly one ContentTag row.
Creation only ever happens on a lookup miss, so no duplicate-key conflict can
arise. -/
theorem c5_ingest_idempotent (db : DB) (p : ContentPayload) (now₁ now₂ : Int)
    (hinv : DBInv db) :
    ((ingest (ingest db p now₁).1 p now₂).1.authors.countP
      (fun a => a.unique_id == p.author.unique_external_id)) = 1 ∧
    ((ingest (ingest db p now₁).1 p now₂).1.contents.countP
      (fun c => c.unique_id == p.unq_external_id)) = 1 ∧
    (∀ n ∈ p.hashtags,
      ((ingest db p now₁).1.tags.countP (fun t => t.name == n)) = 1 ∧
      ((ingest (ingest db p now₁).1 p now₂).1.tags.countP (fun t => t.name == n)) = 1) ∧
    (∃ c, get_content (ingest db p now₁).1 p.unq_external_id = some c ∧
      ∀ n ∈ p.hashtags, ∃ t, get_tag (ingest db p now₁).1 n = some t ∧
        ((ingest db p now₁).1.contentTags.countP
          (fun ct => ct.content_id == c.id && ct.tag_id == t.id)) = 1) ∧
    (∃ c, get_content (ingest (ingest db p now₁).1 p now₂).1 p.unq_external_id = some c ∧
      ∀ n ∈ p.hashtags, ∃ t, get_tag (ingest (ingest db p now₁).1 p now₂).1 n = some t ∧
        ((ingest (ingest db p now₁).1 p now₂).1.contentTags.countP
          (fun ct => ct.content_id == c.id && ct.tag_id == t.id)) = 1) := by
  obtain ⟨hinv1, hauth1, hcont1, hfind1, hlink1⟩ := ingest_spec db p now₁ hinv
  obtain ⟨hinv2, hauth2, hcont2, hfind2, hlink2⟩ :=
    ingest_spec (ingest db p now₁).1 p now₂ hinv1
  refine ⟨hauth2, hcont2, fun n hn => ⟨(hlink1 n hn).1, (hlink2 n hn).1⟩,
    ⟨(ingest db p now₁).2, hfind1, fun n hn => (hlink1 n hn).2⟩,
    ⟨(ingest (ingest db p now₁).1 p now₂).2, hfind2, fun n hn => (hlink2 n hn).2⟩⟩

theorem c5_ingest_idempotent_witness :
    DBInv emptyDB ∧
    (((ingest (ingest emptyDB samplePayload 5).1 samplePayload 9).1.authors.countP
      (fun a => a.unique_id == samplePayload.author.unique_external_id)) = 1 ∧
    ((ingest (ingest emptyDB samplePayload 5).1 samplePayload 9).1.contents.countP
      (fun c => c.unique_id == samplePayload.unq_external_id)) = 1 ∧
    (∀ n ∈ samplePayload.hashtags,
      ((ingest emptyDB samplePayload 5).1.tags.countP (fun t => t.name == n)) = 1 ∧
      ((ingest (ingest emptyDB samplePayload 5).1 samplePayload 9).1.tags.countP
        (fun t => t.name == n)) = 1) ∧
    (∃ c, get_content (ingest emptyDB samplePayload 5).1 samplePayload.unq_external_id =
        some c ∧
      ∀ n ∈ samplePayload.hashtags, ∃ t,
        get_tag (ingest emptyDB samplePayload 5).1 n = some t ∧
        ((ingest emptyDB samplePayload 5).1.contentTags.countP
          (fun ct => ct.content_id == c.id && ct.tag_id == t.id)) = 1) ∧
    (∃ c, get_content (ingest (ingest emptyDB samplePayload 5).1 samplePayload 9).1
        samplePayload.unq_external_id = some c ∧
      ∀ n ∈ samplePayload.hashtags, ∃ t,
        get_tag (ingest (ingest emptyDB samplePayload 5).1 samplePayload 9).1 n = some t ∧
        ((ingest (ingest emptyDB samplePayload 5).1 samplePayload 9).1.contentTags.countP
          (fun ct => ct.content_id == c.id && ct.tag_id == t.id)) = 1)) := by
  have hinv : DBInv emptyDB := by
    constructor <;> simp [emptyDB]
  exact ⟨hinv, c5_ingest_idempotent emptyDB samplePayload 5 9 hinv⟩

end Zelf
